import Mathlib

/-!
# Verification of the `java-classfile` decoder

A shallow embedding, in Lean 4, of the Rust sources of the `java-classfile`
repository (`src/utils.rs`, `src/constant_pool.rs`, `src/attributes.rs`,
`src/classfile.rs`, `src/lib.rs`), together with theorems settling the
specification claims about it.

Embedding conventions:

* A byte buffer is a `List Nat` (each element is one byte of the input).
* The Rust code threads `&[u8]` slices through `split_at`; we model a slice
  position explicitly: every decoder is a function
  `List Nat → Nat → Except DecodeError (α × Nat)` taking the whole input and
  the current offset and returning the decoded value plus the new offset.
* The Rust code has no error channel at all: every failure mode is a panic
  (slice `split_at` with `mid > len`, `Vec` indexing out of range,
  `panic!("Unknown ConstantKind value")`, `panic!("Not Utf8 ConstantPool
  Error")`).  Each panic site is modelled as a distinct `DecodeError`
  constructor, so theorems can talk about which panic a given input causes.
* Machine integers are `Nat` / `Int`.  `u16::to_le` applied to an unchecked
  pointer read yields the little-endian interpretation of the underlying
  bytes on every host (identity on little-endian targets, byte swap of the
  big-endian native read on big-endian targets), so the integer readers are
  modelled as little-endian interpretations with no host parameter.  The
  float readers in the source unconditionally `swap_bytes` the native read,
  which IS host dependent; they take an explicit `hostLE : Bool` parameter.
  Floats are represented by their bit patterns (`Nat`), never by `Float`.
* `HashMap<u16, AttributeInfo>` is modelled as an association list
  `List (Nat × AttributeInfo)`; the decoder never inserts into it.
-/

/-- Little-endian interpretation of a byte list: the first byte is the least
significant.  This is what `to_le` applied to an unchecked native pointer read
computes on every host (see module comment). -/
def leNat (b : List Nat) : Nat := b.foldr (fun x acc => x + 256 * acc) 0

/-- Big-endian interpretation of a byte list: the first byte is the most
significant. -/
def beNat (b : List Nat) : Nat := b.foldl (fun acc x => 256 * acc + x) 0

/-- Reinterpret a `w`-bit unsigned value as a two's-complement signed value. -/
def toSigned (w : Nat) (n : Nat) : Int :=
  if n < 2 ^ (w - 1) then (n : Int) else (n : Int) - 2 ^ w

/-- Model of `utils::read_u16`'s raw pointer access
`*(buffer.as_ptr() as *const u16)` followed by `.to_le()`.  A Rust slice is a
pointer into a backing buffer plus a length; the unchecked read dereferences
the pointer and ignores the length entirely, so the model takes the backing
memory `mem`, the slice start `off` and the slice length `len`, and reads the
two bytes at `off` and `off + 1` regardless of `len`.  Bytes past the end of
`mem` itself are modelled as 0. -/
def read_u16_ptr (mem : List Nat) (off : Nat) (len : Nat) : Nat :=
  let _ := len
  mem.getD off 0 + 256 * mem.getD (off + 1) 0

/-- Model of `utils::read_u16` as used inside the decoder, where the argument
is always the exact-width head produced by `split_at`: the little-endian value
of the first two bytes. -/
def read_u16 (b : List Nat) : Nat := leNat (b.take 2)

/-- Model of `utils::read_u32`: little-endian value of the first four bytes
(unchecked native pointer read followed by `.to_le()`). -/
def read_u32 (b : List Nat) : Nat := leNat (b.take 4)

/-- Model of `utils::read_i32`: the `read_u32` bit pattern reinterpreted as a
two's-complement signed 32-bit value. -/
def read_i32 (b : List Nat) : Int := toSigned 32 (leNat (b.take 4))

/-- Model of `utils::read_i64`: little-endian 64-bit read reinterpreted as a
two's-complement signed value. -/
def read_i64 (b : List Nat) : Int := toSigned 64 (leNat (b.take 8))

/-- Model of `utils::read_f32`, as the bit pattern of the returned float.  The
source reads the bytes as a native-endian `f32` and then unconditionally
`swap_bytes`s the bit pattern, so the result is the big-endian interpretation
on a little-endian host and the little-endian interpretation on a big-endian
host: host dependent, hence the explicit `hostLE` parameter. -/
def read_f32_bits (hostLE : Bool) (b : List Nat) : Nat :=
  if hostLE then beNat (b.take 4) else leNat (b.take 4)

/-- Model of `utils::read_f64`, as the bit pattern of the returned double;
host dependent exactly like `read_f32_bits`. -/
def read_f64_bits (hostLE : Bool) (b : List Nat) : Nat :=
  if hostLE then beNat (b.take 8) else leNat (b.take 8)

/-- Model of `utils::read_str`: `from_utf8_unchecked` performs no validation
and no copy, so the "string" is just the raw byte span. -/
def read_str (b : List Nat) : List Nat := b

/-- The distinct runtime failure modes of the Rust decoder.  The source has no
`Result` type; each constructor names one panic site. -/
inductive DecodeError where
  /-- Panic of `slice::split_at` (and `split_at`'s bounds check) when more
  bytes are requested than remain. -/
  | boundsPanic
  /-- `panic!("Unknown ConstantKind value")` in `impl From<u8> for
  ConstantKind`. -/
  | unknownKindPanic
  /-- `panic!("Not Utf8 ConstantPool Error")` in the `utf8_info_as_str`
  macro. -/
  | notUtf8Panic
  /-- `Vec` index-out-of-bounds panic of `constant_pool[index]` in the
  `utf8_info_as_str` macro. -/
  | indexPanic
deriving Repr, DecidableEq

/-- The type of a decoding step: whole input, current offset, and on success
the decoded value together with the next offset. -/
abbrev Dec (α : Type) := List Nat → Nat → Except DecodeError (α × Nat)

/-- A step that consumes nothing and returns `a` (a plain Rust expression). -/
def pureD {α : Type} (a : α) : Dec α := fun _ p => .ok (a, p)

/-- A step that always fails (a Rust panic). -/
def errD {α : Type} (e : DecodeError) : Dec α := fun _ _ => .error e

/-- Lift a buffer-independent fallible computation into a step. -/
def liftE {α : Type} (r : Except DecodeError α) : Dec α := fun _ p =>
  match r with
  | .ok a => .ok (a, p)
  | .error e => .error e

/-- Sequencing of two steps: run `d1`, and on success feed its value and the
advanced offset to `d2`.  This models the Rust pattern
`let (head, rest) = ...; <continue on rest>`, where a panic aborts the whole
computation. -/
def andThen {α β : Type} (d1 : Dec α) (d2 : α → Dec β) : Dec β := fun bs p =>
  match d1 bs p with
  | .error e => .error e
  | .ok (a, p1) => d2 a bs p1

/-- Model of `buffer.split_at(n)`: if at least `n` bytes remain past the
current offset it returns the `n`-byte head and advances the offset (the
"rest"); otherwise it panics (`boundsPanic`), exactly like Rust's
`slice::split_at` when `mid > len`. -/
def split_at (n : Nat) : Dec (List Nat) := fun bs p =>
  if p + n ≤ bs.length then .ok ((bs.drop p).take n, p + n) else .error .boundsPanic

/-- Constant pool kinds as defined in `constant_pool.rs` (`enum ConstantKind`),
with their tag values given by `toU8`. -/
inductive ConstantKind where
  | Utf8 | Integer | Float | Long | Double | Class | String | FieldRef
  | MethodRef | InterfaceMethodRef | NameAndType | MethodHandle | MethodType
  | Dynamic | InvokeDynamic | Module | Package
deriving Repr, DecidableEq

/-- The discriminant values of `enum ConstantKind`. -/
def ConstantKind.toU8 : ConstantKind → Nat
  | .Utf8 => 1 | .Integer => 3 | .Float => 4 | .Long => 5 | .Double => 6
  | .Class => 7 | .String => 8 | .FieldRef => 9 | .MethodRef => 10
  | .InterfaceMethodRef => 11 | .NameAndType => 12 | .MethodHandle => 15
  | .MethodType => 16 | .Dynamic => 17 | .InvokeDynamic => 18
  | .Module => 19 | .Package => 20

/-- Model of `impl From<u8> for ConstantKind`.  The source panics with
"Unknown ConstantKind value" on any other byte; the panic is represented by
`none` here and converted to `DecodeError.unknownKindPanic` at the call site
in the constant-pool loop. -/
def ConstantKind.fromU8? : Nat → Option ConstantKind
  | 1 => some .Utf8
  | 3 => some .Integer
  | 4 => some .Float
  | 5 => some .Long
  | 6 => some .Double
  | 7 => some .Class
  | 8 => some .String
  | 9 => some .FieldRef
  | 10 => some .MethodRef
  | 11 => some .InterfaceMethodRef
  | 12 => some .NameAndType
  | 15 => some .MethodHandle
  | 16 => some .MethodType
  | 17 => some .Dynamic
  | 18 => some .InvokeDynamic
  | 19 => some .Module
  | 20 => some .Package
  | _ => none

/-- `CONSTANT_Class` payload (`struct ConstantClassInfo`). -/
structure ConstantClassInfo where
  tag : ConstantKind
  name_index : Nat
deriving Repr, DecidableEq

/-- `CONSTANT_FieldRef` payload. -/
structure ConstantFieldRefInfo where
  tag : ConstantKind
  class_index : Nat
  name_and_type_index : Nat
deriving Repr, DecidableEq

/-- `CONSTANT_MethodRef` payload. -/
structure ConstantMethodRefInfo where
  tag : ConstantKind
  class_index : Nat
  name_and_type_index : Nat
deriving Repr, DecidableEq

/-- `CONSTANT_InterfaceMethodRef` payload. -/
structure ConstantInterfaceMethodRefInfo where
  tag : ConstantKind
  class_index : Nat
  name_and_type_index : Nat
deriving Repr, DecidableEq

/-- `CONSTANT_String` payload. -/
structure ConstantStringInfo where
  tag : ConstantKind
  string_index : Nat
deriving Repr, DecidableEq

/-- `CONSTANT_Integer` payload (`data: i32`). -/
structure ConstantIntegerInfo where
  tag : ConstantKind
  data : Int
deriving Repr, DecidableEq

/-- `CONSTANT_Float` payload; `data` is the bit pattern of the Rust `f32`. -/
structure ConstantFloatInfo where
  tag : ConstantKind
  data : Nat
deriving Repr, DecidableEq

/-- `CONSTANT_Long` payload (`data: i64`). -/
structure ConstantLongInfo where
  tag : ConstantKind
  data : Int
deriving Repr, DecidableEq

/-- `CONSTANT_Double` payload; `data` is the bit pattern of the Rust `f64`. -/
structure ConstantDoubleInfo where
  tag : ConstantKind
  data : Nat
deriving Repr, DecidableEq

/-- `CONSTANT_NameAndType` payload. -/
structure ConstantNameAndTypeInfo where
  tag : ConstantKind
  name_index : Nat
  descriptor_index : Nat
deriving Repr, DecidableEq

/-- `CONSTANT_Utf8` payload: declared length plus the borrowed byte span
(`from_utf8_unchecked`, so no validation). -/
structure ConstantUtf8Info where
  tag : ConstantKind
  length : Nat
  data : List Nat
deriving Repr, DecidableEq

/-- `CONSTANT_MethodHandle` payload. -/
structure ConstantMethodHandleInfo where
  tag : ConstantKind
  reference_kind : Nat
  reference_index : Nat
deriving Repr, DecidableEq

/-- `CONSTANT_MethodType` payload. -/
structure ConstantMethodTypeInfo where
  tag : ConstantKind
  descriptor_index : Nat
deriving Repr, DecidableEq

/-- `CONSTANT_Dynamic` payload. -/
structure ConstantDynamicInfo where
  tag : ConstantKind
  bootstrap_method_handle_attr_index : Nat
  name_and_type_index : Nat
deriving Repr, DecidableEq

/-- `CONSTANT_InvokeDynamic` payload. -/
structure ConstantInvokeDynamicInfo where
  tag : ConstantKind
  bootstrap_method_attr_index : Nat
  name_and_type_index : Nat
deriving Repr, DecidableEq

/-- `CONSTANT_Module` payload. -/
structure ConstantModuleInfo where
  tag : ConstantKind
  name_index : Nat
deriving Repr, DecidableEq

/-- `CONSTANT_Package` payload. -/
structure ConstantPackageInfo where
  tag : ConstantKind
  name_index : Nat
deriving Repr, DecidableEq

/-- `enum ConstantPoolInfo`: one decoded constant-pool slot.  `Dummy()` is the
unpopulated placeholder used for index 0 and for the slot following a
`Long`/`Double` entry. -/
inductive ConstantPoolInfo where
  | Dummy
  | Class (info : ConstantClassInfo)
  | FieldRef (info : ConstantFieldRefInfo)
  | MethodRef (info : ConstantMethodRefInfo)
  | InterfaceMethodRef (info : ConstantInterfaceMethodRefInfo)
  | String (info : ConstantStringInfo)
  | Integer (info : ConstantIntegerInfo)
  | Float (info : ConstantFloatInfo)
  | Long (info : ConstantLongInfo)
  | Double (info : ConstantDoubleInfo)
  | NameAndType (info : ConstantNameAndTypeInfo)
  | Utf8 (info : ConstantUtf8Info)
  | MethodHandle (info : ConstantMethodHandleInfo)
  | MethodType (info : ConstantMethodTypeInfo)
  | Dynamic (info : ConstantDynamicInfo)
  | InvokeDynamic (info : ConstantInvokeDynamicInfo)
  | Module (info : ConstantModuleInfo)
  | Package (info : ConstantPackageInfo)
deriving Repr, DecidableEq

/-- `struct ConstantValueAttribute`. -/
structure ConstantValueAttribute where
  constant_value_index : Nat

/-- `struct ExceptionTableEntry`. -/
structure ExceptionTableEntry where
  start_pc : Nat
  end_pc : Nat
  handler_pc : Nat
  catch_type : Nat

/-- `enum StackMapFrameType` with its discriminants. -/
inductive StackMapFrameType where
  | SameFrame | SameLocals1StackItemFrame | SameLocals1StackItemFrameExtended
  | ChopFrame | SameFrameExtended | AppendFrame | FullFrame

/-- `enum VerificationTypeInfo`. -/
inductive VerificationTypeInfo where
  | Top | Integer | Float | Long | Double | Null | UninitializedThis
  | Object (cpool_index : Nat)
  | Uninitialized (offset : Nat)

/-- `struct SameFrame`. -/
structure SameFrame where
  frame_type : Nat

/-- `struct SameLocals1StackItemFrame`. -/
structure SameLocals1StackItemFrame where
  frame_type : Nat
  stack : VerificationTypeInfo

/-- `struct SameLocals1StackItemFrameExtended`. -/
structure SameLocals1StackItemFrameExtended where
  frame_type : Nat
  offset_delta : Nat
  stack : VerificationTypeInfo

/-- `struct ChopFrame`. -/
structure ChopFrame where
  frame_type : Nat
  offset_delta : Nat

/-- `struct SameFrameExtended`. -/
structure SameFrameExtended where
  frame_type : Nat
  offset_delta : Nat

/-- `struct AppendFrame`. -/
structure AppendFrame where
  frame_type : Nat
  offset_delta : Nat
  locals : List VerificationTypeInfo

/-- `struct FullFrame`. -/
structure FullFrame where
  frame_type : Nat
  offset_delta : Nat
  number_of_locals : Nat
  locals : List VerificationTypeInfo
  number_of_stack_items : Nat
  stack : List VerificationTypeInfo

/-- `enum StackMapFrame`. -/
inductive StackMapFrame where
  | SameFrame (f : SameFrame)
  | SameLocals1StackItemFrame (f : SameLocals1StackItemFrame)
  | SameLocals1StackItemFrameExtended (f : SameLocals1StackItemFrameExtended)
  | ChopFrame (f : ChopFrame)
  | SameFrameExtended (f : SameFrameExtended)
  | AppendFrame (f : AppendFrame)
  | FullFrame (f : FullFrame)

/-- `struct StackMapTableAttribute`. -/
structure StackMapTableAttribute where
  number_of_entries : Nat
  entries : List StackMapFrame

/-- `struct ExceptionsAttribute`. -/
structure ExceptionsAttribute where
  number_of_exceptions : Nat
  exception_index_table : List Nat

/-- `struct InnerClassInfo`. -/
structure InnerClassInfo where
  inner_class_info_index : Nat
  outer_class_info_index : Nat
  inner_name_index : Nat
  inner_class_access_flags : Nat

/-- `struct InnerClassesAttribute`. -/
structure InnerClassesAttribute where
  number_of_classes : Nat
  classes : List InnerClassInfo

/-- `struct EnclosingMethodAttribute`. -/
structure EnclosingMethodAttribute where
  class_index : Nat
  method_index : Nat

/-- `struct SignatureAttribute`. -/
structure SignatureAttribute where
  signature_index : Nat

/-- `struct SourceFileAttribute`. -/
structure SourceFileAttribute where
  sourcefile_index : Nat

/-- `struct LineNumberTableEntry`. -/
structure LineNumberTableEntry where
  start_pc : Nat
  line_number : Nat

/-- `struct LineNumberTableAttribute`. -/
structure LineNumberTableAttribute where
  line_number_table_length : Nat
  line_number_table : List LineNumberTableEntry

/-- `struct LocalVariableTableEntry`. -/
structure LocalVariableTableEntry where
  start_pc : Nat
  length : Nat
  name_index : Nat
  descriptor_index : Nat
  index : Nat

/-- `struct LocalVariableTableAttribute`. -/
structure LocalVariableTableAttribute where
  local_variable_table_length : Nat
  local_variable_table : List LocalVariableTableEntry

/-- `struct LocalVariableTypeTableEntry`. -/
structure LocalVariableTypeTableEntry where
  start_pc : Nat
  length : Nat
  name_index : Nat
  signature_index : Nat
  index : Nat

/-- `struct LocalVariableTypeTableAttribute`. -/
structure LocalVariableTypeTableAttribute where
  local_variable_type_table_length : Nat
  local_variable_type_table : List LocalVariableTypeTableEntry

/-- `struct BootstrapMethodEntry`. -/
structure BootstrapMethodEntry where
  bootstrap_method_ref : Nat
  num_bootstrap_arguments : Nat
  bootstrap_arguments : List Nat

/-- `struct BootstrapMethodsAttribute`. -/
structure BootstrapMethodsAttribute where
  num_bootstrap_methods : Nat
  bootstrap_methods : List BootstrapMethodEntry

/-- `struct NestHostAttribute`. -/
structure NestHostAttribute where
  host_class_index : Nat

/-- `struct NestMembersAttribute`. -/
structure NestMembersAttribute where
  number_of_classes : Nat
  classes : List Nat

/-- `struct PermittedSubtypesAttribute`. -/
structure PermittedSubtypesAttribute where
  number_of_classes : Nat
  classes : List Nat

/-- `enum AttributeInfo` from `attributes.rs`, restricted to the variants that
are not commented out in the source.  The `Code` and `RecordComponentInfo` /
`Record` payloads recursively contain an attribute dictionary
(`HashMap<u16, AttributeInfo>`, modelled as an association list), so their
struct fields are inlined into the constructors; all other payloads use the
structures above.  Note that the live decoder (`decode_attributes`) never
constructs any value of this type. -/
inductive AttributeInfo where
  | ConstantValue (a : ConstantValueAttribute)
  | Code (max_stack : Nat) (max_locals : Nat) (code_length : Nat)
      (code : List Nat) (exception_table_length : Nat)
      (exception_table : List ExceptionTableEntry)
      (attributes : List (Nat × AttributeInfo))
  | StackMapTable (a : StackMapTableAttribute)
  | Exceptions (a : ExceptionsAttribute)
  | InnerClasses (a : InnerClassesAttribute)
  | EnclosingMethod (a : EnclosingMethodAttribute)
  | Synthetic
  | Signature (a : SignatureAttribute)
  | SourceFile (a : SourceFileAttribute)
  | LineNumberTable (a : LineNumberTableAttribute)
  | LocalVariableTable (a : LocalVariableTableAttribute)
  | LocalVariableTypeTable (a : LocalVariableTypeTableAttribute)
  | BootstrapMethods (a : BootstrapMethodsAttribute)
  | NestHost (a : NestHostAttribute)
  | NestMembers (a : NestMembersAttribute)
  | Record (components_count : Nat)
      (components : List (Nat × Nat × List (Nat × AttributeInfo)))
  | PermittedSubtypes (a : PermittedSubtypesAttribute)
  | Unknown

/-- The attribute dictionary `HashMap<u16, AttributeInfo>`, modelled as an
association list from name index to attribute. -/
abbrev AttrMap := List (Nat × AttributeInfo)

/-- `struct FieldInfo` from `classfile.rs`. -/
structure FieldInfo where
  access_flags : Nat
  name_index : Nat
  descriptor_index : Nat
  attributes : AttrMap

/-- `struct MethodInfo` from `classfile.rs`. -/
structure MethodInfo where
  access_flags : Nat
  name_index : Nat
  descriptor_index : Nat
  attributes : AttrMap

/-- `struct JavaClassFile` from `classfile.rs`. -/
structure JavaClassFile where
  magic : Nat
  minor_version : Nat
  major_version : Nat
  constant_pool : List ConstantPoolInfo
  access_flags : Nat
  this_class : Nat
  super_class : Nat
  interfaces : List Nat
  fields : List FieldInfo
  methods : List MethodInfo
  attributes : AttrMap

/-- `pub const CLASS_FILE_MAGIC: u32 = 0xCAFEBABE` from `classfile.rs`. -/
def CLASS_FILE_MAGIC : Nat := 0xCAFEBABE

/-- `enum ClassAccessFlag` from `classfile.rs`. -/
inductive ClassAccessFlag where
  | Public | Final | Super | Interface | Abstract | Synthetic | Annotation
  | Enum | Module
deriving Repr, DecidableEq

/-- Discriminants of `enum ClassAccessFlag`. -/
def ClassAccessFlag.toU16 : ClassAccessFlag → Nat
  | .Public => 0x0001 | .Final => 0x0010 | .Super => 0x0020
  | .Interface => 0x0200 | .Abstract => 0x0400 | .Synthetic => 0x1000
  | ClassAccessFlag.Annotation => 0x2000 | .Enum => 0x4000 | .Module => 0x8000

/-- `enum FieldAccessFlag` from `classfile.rs`. -/
inductive FieldAccessFlag where
  | Public | Private | Protected | Static | Final | Volatile | Transient
  | Synthetic | Enum
deriving Repr, DecidableEq

/-- Discriminants of `enum FieldAccessFlag`. -/
def FieldAccessFlag.toU16 : FieldAccessFlag → Nat
  | .Public => 0x0001 | .Private => 0x0002 | .Protected => 0x0004
  | .Static => 0x0008 | .Final => 0x0010 | .Volatile => 0x0040
  | .Transient => 0x0080 | .Synthetic => 0x1000 | .Enum => 0x4000

/-- `enum MethodAccessFlag` from `classfile.rs`. -/
inductive MethodAccessFlag where
  | Public | Private | Protected | Static | Final | Synchronized | Bridge
  | Varargs | Native | Abstract | Strict | Synthetic
deriving Repr, DecidableEq

/-- Discriminants of `enum MethodAccessFlag`. -/
def MethodAccessFlag.toU16 : MethodAccessFlag → Nat
  | .Public => 0x0001 | .Private => 0x0002 | .Protected => 0x0004
  | .Static => 0x0008 | .Final => 0x0010 | .Synchronized => 0x0020
  | .Bridge => 0x0040 | .Varargs => 0x0080 | .Native => 0x0100
  | .Abstract => 0x0400 | .Strict => 0x0800 | .Synthetic => 0x1000

/-- `impl AccessFlag for ClassAccessFlag`: `(*self as u16 & flag) != 0`. -/
def ClassAccessFlag.test (s : ClassAccessFlag) (flag : Nat) : Bool :=
  (s.toU16 &&& flag) != 0

/-- `impl AccessFlag for FieldAccessFlag`: `(*self as u16 & flag) != 0`. -/
def FieldAccessFlag.test (s : FieldAccessFlag) (flag : Nat) : Bool :=
  (s.toU16 &&& flag) != 0

/-- `impl AccessFlag for MethodAccessFlag`: `(*self as u16 & flag) != 0`. -/
def MethodAccessFlag.test (s : MethodAccessFlag) (flag : Nat) : Bool :=
  (s.toU16 &&& flag) != 0

/-- Model of the `utf8_info_as_str!` macro from `constant_pool.rs`:
`constant_pool[index]` (a `Vec` index that panics when out of range — modelled
as `indexPanic`), then a match that returns the UTF-8 data and panics with
"Not Utf8 ConstantPool Error" (`notUtf8Panic`) on every other variant. -/
def utf8_info_as_str (constant_pool : List ConstantPoolInfo) (index : Nat) :
    Except DecodeError (List Nat) :=
  match constant_pool.get? index with
  | none => .error .indexPanic
  | some (.Utf8 utf8_info) => .ok utf8_info.data
  | some _ => .error .notUtf8Panic

/-- `decode_class_info` from `constant_pool.rs`. -/
def decode_class_info : Dec ConstantClassInfo :=
  andThen (split_at 2) fun head =>
  pureD { tag := .Class, name_index := read_u16 head }

/-- `decode_field_ref_info` from `constant_pool.rs`. -/
def decode_field_ref_info : Dec ConstantFieldRefInfo :=
  andThen (split_at 2) fun head =>
  andThen (split_at 2) fun head2 =>
  pureD { tag := .FieldRef, class_index := read_u16 head,
          name_and_type_index := read_u16 head2 }

/-- `decode_method_ref_info` from `constant_pool.rs`. -/
def decode_method_ref_info : Dec ConstantMethodRefInfo :=
  andThen (split_at 2) fun head =>
  andThen (split_at 2) fun head2 =>
  pureD { tag := .MethodRef, class_index := read_u16 head,
          name_and_type_index := read_u16 head2 }

/-- `decode_interface_method_ref_info` from `constant_pool.rs`. -/
def decode_interface_method_ref_info : Dec ConstantInterfaceMethodRefInfo :=
  andThen (split_at 2) fun head =>
  andThen (split_at 2) fun head2 =>
  pureD { tag := .InterfaceMethodRef, class_index := read_u16 head,
          name_and_type_index := read_u16 head2 }

/-- `decode_string_info` from `constant_pool.rs`. -/
def decode_string_info : Dec ConstantStringInfo :=
  andThen (split_at 2) fun head =>
  pureD { tag := .String, string_index := read_u16 head }

/-- `decode_integer_info` from `constant_pool.rs` (reads `size_of::<i32>() = 4`
bytes). -/
def decode_integer_info : Dec ConstantIntegerInfo :=
  andThen (split_at 4) fun head =>
  pureD { tag := .Integer, data := read_i32 head }

/-- `decode_float_info` from `constant_pool.rs` (reads `size_of::<f32>() = 4`
bytes; the stored `data` is the bit pattern of the host-dependent
`read_f32`). -/
def decode_float_info (hostLE : Bool) : Dec ConstantFloatInfo :=
  andThen (split_at 4) fun head =>
  pureD { tag := .Float, data := read_f32_bits hostLE head }

/-- `decode_long_info` from `constant_pool.rs` (reads 8 bytes). -/
def decode_long_info : Dec ConstantLongInfo :=
  andThen (split_at 8) fun head =>
  pureD { tag := .Long, data := read_i64 head }

/-- `decode_double_info` from `constant_pool.rs` (reads 8 bytes). -/
def decode_double_info (hostLE : Bool) : Dec ConstantDoubleInfo :=
  andThen (split_at 8) fun head =>
  pureD { tag := .Double, data := read_f64_bits hostLE head }

/-- `decode_name_and_type_info` from `constant_pool.rs`. -/
def decode_name_and_type_info : Dec ConstantNameAndTypeInfo :=
  andThen (split_at 2) fun head =>
  andThen (split_at 2) fun head2 =>
  pureD { tag := .NameAndType, name_index := read_u16 head,
          descriptor_index := read_u16 head2 }

/-- `decode_utf8_info` from `constant_pool.rs`: a 16-bit length (read by the
little-endian `read_u16`, see module comment) followed by exactly that many
bytes of unvalidated text. -/
def decode_utf8_info : Dec ConstantUtf8Info :=
  andThen (split_at 2) fun head =>
  andThen (split_at (read_u16 head)) fun head2 =>
  pureD { tag := .Utf8, length := read_u16 head, data := read_str head2 }

/-- `decode_method_handle_info` from `constant_pool.rs` (a 1-byte reference
kind, then a 16-bit index; `head[0]` is modelled as `head.getD 0 0`, always in
range because the head has exactly one byte). -/
def decode_method_handle_info : Dec ConstantMethodHandleInfo :=
  andThen (split_at 1) fun head =>
  andThen (split_at 2) fun head2 =>
  pureD { tag := .MethodHandle, reference_kind := head.getD 0 0,
          reference_index := read_u16 head2 }

/-- `decode_method_type_info` from `constant_pool.rs`. -/
def decode_method_type_info : Dec ConstantMethodTypeInfo :=
  andThen (split_at 2) fun head =>
  pureD { tag := .MethodType, descriptor_index := read_u16 head }

/-- `decode_dynamic_info` from `constant_pool.rs`. -/
def decode_dynamic_info : Dec ConstantDynamicInfo :=
  andThen (split_at 2) fun head =>
  andThen (split_at 2) fun head2 =>
  pureD { tag := .Dynamic, bootstrap_method_handle_attr_index := read_u16 head,
          name_and_type_index := read_u16 head2 }

/-- `decode_invoke_dynamic_info` from `constant_pool.rs`. -/
def decode_invoke_dynamic_info : Dec ConstantInvokeDynamicInfo :=
  andThen (split_at 2) fun head =>
  andThen (split_at 2) fun head2 =>
  pureD { tag := .InvokeDynamic, bootstrap_method_attr_index := read_u16 head,
          name_and_type_index := read_u16 head2 }

/-- `decode_module_info` from `constant_pool.rs`. -/
def decode_module_info : Dec ConstantModuleInfo :=
  andThen (split_at 2) fun head =>
  pureD { tag := .Module, name_index := read_u16 head }

/-- `decode_package_info` from `constant_pool.rs`. -/
def decode_package_info : Dec ConstantPackageInfo :=
  andThen (split_at 2) fun head =>
  pureD { tag := .Package, name_index := read_u16 head }

/-- One iteration of the `while i < count` loop of `decode_constant_pool`:
read one tag byte, convert it (`ConstantKind::from` panics on unknown bytes),
dispatch to the matching entry decoder, push the decoded entry — plus an
extra `Dummy` placeholder after a `Long` or `Double` — and continue.  The
continuation is supplied by `cpLoop` below: `kNarrow` receives the grown
entry list after a one-slot entry (`i += 1` in the source), `kWide` after a
two-slot `Long`/`Double` entry (`i += 2`). -/
def cpStep (hostLE : Bool)
    (kNarrow kWide : List ConstantPoolInfo → Dec (List ConstantPoolInfo))
    (constants : List ConstantPoolInfo) : Dec (List ConstantPoolInfo) :=
  andThen (split_at 1) fun head =>
  match ConstantKind.fromU8? (head.getD 0 0) with
  | none => errD .unknownKindPanic
  | some .Class =>
    andThen decode_class_info fun info =>
    kNarrow (constants ++ [.Class info])
  | some .FieldRef =>
    andThen decode_field_ref_info fun info =>
    kNarrow (constants ++ [.FieldRef info])
  | some .MethodRef =>
    andThen decode_method_ref_info fun info =>
    kNarrow (constants ++ [.MethodRef info])
  | some .InterfaceMethodRef =>
    andThen decode_interface_method_ref_info fun info =>
    kNarrow (constants ++ [.InterfaceMethodRef info])
  | some .String =>
    andThen decode_string_info fun info =>
    kNarrow (constants ++ [.String info])
  | some .Integer =>
    andThen decode_integer_info fun info =>
    kNarrow (constants ++ [.Integer info])
  | some .Float =>
    andThen (decode_float_info hostLE) fun info =>
    kNarrow (constants ++ [.Float info])
  | some .Long =>
    andThen decode_long_info fun info =>
    kWide (constants ++ [.Long info, .Dummy])
  | some .Double =>
    andThen (decode_double_info hostLE) fun info =>
    kWide (constants ++ [.Double info, .Dummy])
  | some .NameAndType =>
    andThen decode_name_and_type_info fun info =>
    kNarrow (constants ++ [.NameAndType info])
  | some .Utf8 =>
    andThen decode_utf8_info fun info =>
    kNarrow (constants ++ [.Utf8 info])
  | some .MethodHandle =>
    andThen decode_method_handle_info fun info =>
    kNarrow (constants ++ [.MethodHandle info])
  | some .MethodType =>
    andThen decode_method_type_info fun info =>
    kNarrow (constants ++ [.MethodType info])
  | some .Dynamic =>
    andThen decode_dynamic_info fun info =>
    kNarrow (constants ++ [.Dynamic info])
  | some .InvokeDynamic =>
    andThen decode_invoke_dynamic_info fun info =>
    kNarrow (constants ++ [.InvokeDynamic info])
  | some .Module =>
    andThen decode_module_info fun info =>
    kNarrow (constants ++ [.Module info])
  | some .Package =>
    andThen decode_package_info fun info =>
    kNarrow (constants ++ [.Package info])

/-- The `while i < count` loop of `decode_constant_pool`, with `remaining`
standing for `count - i` (the loop runs while `remaining > 0`, i.e.
`i < count`).  A one-slot entry decreases `remaining` by 1 (`i += 1`); a
`Long`/`Double` entry decreases it by 2 (`i += 2`), which for
`remaining = 1` overshoots to 0 in natural subtraction and ends the loop
with both pushed slots in place, exactly as `i += 2` overshoots `count` in
the source.  The three patterns keep the recursion structural so that runs
on concrete inputs reduce definitionally. -/
def cpLoop (hostLE : Bool) : Nat → List ConstantPoolInfo →
    Dec (List ConstantPoolInfo)
  | 0, constants => pureD constants
  | 1, constants => cpStep hostLE pureD pureD constants
  | r + 2, constants =>
    cpStep hostLE (cpLoop hostLE (r + 1)) (cpLoop hostLE r) constants

/-- `decode_constant_pool` from `constant_pool.rs`: reads the 16-bit count,
pushes the `Dummy` placeholder for index 0, and runs the entry loop with the
running index starting at 1 (`remaining = count - 1`; for `count = 0` the
natural subtraction gives 0 and the loop is skipped, exactly as `1 < 0` fails
in the source). -/
def decode_constant_pool (hostLE : Bool) : Dec (List ConstantPoolInfo) :=
  andThen (split_at 2) fun head =>
  cpLoop hostLE (read_u16 head - 1) [.Dummy]

/-- The `for _ in 0..attributes_count` loop of `decode_attributes`: each
iteration reads a 16-bit name index, resolves it against the constant pool
(which can panic), reads the 16-bit `attribute_length` field — note the source
reads this with `size_of::<u16>()`, not the class-file format's 32 bits — and
then matches on the name with every arm commented out, so nothing is inserted
into `attributes` and no payload bytes are skipped. -/
def attrLoop (constant_pool : List ConstantPoolInfo) :
    Nat → AttrMap → Dec AttrMap
  | 0, attributes => pureD attributes
  | k + 1, attributes =>
    andThen (split_at 2) fun head =>
    andThen (liftE (utf8_info_as_str constant_pool (read_u16 head)))
      fun _attribute_name =>
    andThen (split_at 2) fun _head2 =>
    attrLoop constant_pool k attributes

/-- `decode_attributes` from `attributes.rs`: reads the 16-bit count, starts
from an empty dictionary and runs the loop above. -/
def decode_attributes (constant_pool : List ConstantPoolInfo) : Dec AttrMap :=
  andThen (split_at 2) fun head =>
  attrLoop constant_pool (read_u16 head) []

/-- `decode_this_or_super_class` from `classfile.rs`. -/
def decode_this_or_super_class : Dec Nat :=
  andThen (split_at 2) fun head =>
  pureD (read_u16 head)

/-- The `for _ in 0..interfaces_count` loop of `decode_interfaces`. -/
def interfacesLoop : Nat → List Nat → Dec (List Nat)
  | 0, interfaces => pureD interfaces
  | k + 1, interfaces =>
    andThen (split_at 2) fun head =>
    interfacesLoop k (interfaces ++ [read_u16 head])

/-- `decode_interfaces` from `classfile.rs`. -/
def decode_interfaces : Dec (List Nat) :=
  andThen (split_at 2) fun head =>
  interfacesLoop (read_u16 head) []

/-- The `for _ in 0..fields_count` loop of `decode_fields`. -/
def fieldsLoop (constant_pool : List ConstantPoolInfo) :
    Nat → List FieldInfo → Dec (List FieldInfo)
  | 0, fields => pureD fields
  | k + 1, fields =>
    andThen (split_at 2) fun head =>
    andThen (split_at 2) fun head2 =>
    andThen (split_at 2) fun head3 =>
    andThen (decode_attributes constant_pool) fun attributes =>
    fieldsLoop constant_pool k
      (fields ++ [{ access_flags := read_u16 head, name_index := read_u16 head2,
                    descriptor_index := read_u16 head3, attributes }])

/-- `decode_fields` from `classfile.rs`. -/
def decode_fields (constant_pool : List ConstantPoolInfo) :
    Dec (List FieldInfo) :=
  andThen (split_at 2) fun head =>
  fieldsLoop constant_pool (read_u16 head) []

/-- The `for _ in 0..methods_count` loop of `decode_methods`. -/
def methodsLoop (constant_pool : List ConstantPoolInfo) :
    Nat → List MethodInfo → Dec (List MethodInfo)
  | 0, methods => pureD methods
  | k + 1, methods =>
    andThen (split_at 2) fun head =>
    andThen (split_at 2) fun head2 =>
    andThen (split_at 2) fun head3 =>
    andThen (decode_attributes constant_pool) fun attributes =>
    methodsLoop constant_pool k
      (methods ++ [{ access_flags := read_u16 head, name_index := read_u16 head2,
                     descriptor_index := read_u16 head3, attributes }])

/-- `decode_methods` from `classfile.rs`. -/
def decode_methods (constant_pool : List ConstantPoolInfo) :
    Dec (List MethodInfo) :=
  andThen (split_at 2) fun head =>
  methodsLoop constant_pool (read_u16 head) []

/-- `decode` from `lib.rs`, with the final offset kept (the source drops the
`rest` returned by the last `decode_attributes`; `decode` below is that
dropping wrapper).  The field order and read widths follow the source line by
line; note in particular that the 32-bit magic is read and stored but never
compared against `CLASS_FILE_MAGIC`. -/
def decodeD (hostLE : Bool) : Dec JavaClassFile :=
  andThen (split_at 4) fun head0 =>
  andThen (split_at 2) fun head1 =>
  andThen (split_at 2) fun head2 =>
  andThen (decode_constant_pool hostLE) fun constant_pool =>
  andThen (split_at 2) fun head3 =>
  andThen decode_this_or_super_class fun this_class =>
  andThen decode_this_or_super_class fun super_class =>
  andThen decode_interfaces fun interfaces =>
  andThen (decode_fields constant_pool) fun fields =>
  andThen (decode_methods constant_pool) fun methods =>
  andThen (decode_attributes constant_pool) fun attributes =>
  pureD { magic := read_u32 head0, minor_version := read_u16 head1,
          major_version := read_u16 head2, constant_pool,
          access_flags := read_u16 head3, this_class, super_class,
          interfaces, fields, methods, attributes }

/-- `decode` from `lib.rs`: run `decodeD` from offset 0 and drop the final
offset, as the source drops the unread remainder. -/
def decode (hostLE : Bool) (bytes : List Nat) :
    Except DecodeError JavaClassFile :=
  match decodeD hostLE bytes 0 with
  | .ok (java_class_file, _) => .ok java_class_file
  | .error e => .error e

/-- Concrete input: a byte-for-byte minimal class file *as the decoder's
little-endian reads expect it* — one UTF-8 entry (`"A"`) plus the two class
entries for this/super, 0 interfaces, 0 fields, 0 methods, 0 attributes.
Every multi-byte field is written least-significant-byte first so that the
`to_le`-based readers see the intended values. -/
def minimalLE : List Nat :=
  [0xCA, 0xFE, 0xBA, 0xBE, 0, 0, 61, 0, 4, 0,
   1, 1, 0, 0x41,
   7, 1, 0,
   7, 1, 0,
   0x21, 0, 2, 0, 3, 0, 0, 0, 0, 0, 0, 0, 0, 0]

/-- The decoded tree of `minimalLE` (checked by `rfl` below): the `Dummy`
slot 0, the UTF-8 entry, the two class entries, and empty interface, field,
method and attribute collections. -/
def minimalLETree : JavaClassFile :=
  { magic := 0xBEBAFECA, minor_version := 0, major_version := 61,
    constant_pool :=
      [.Dummy, .Utf8 { tag := .Utf8, length := 1, data := [0x41] },
       .Class { tag := .Class, name_index := 1 },
       .Class { tag := .Class, name_index := 1 }],
    access_flags := 0x21, this_class := 2, super_class := 3,
    interfaces := [], fields := [], methods := [], attributes := [] }

/-- Concrete input: the same minimal class file in the class-file format's
actual big-endian ("network order") encoding, as produced by a Java compiler:
magic CA FE BA BE, major version 61, constant-pool count 4, one UTF-8 entry
(`"A"`), two class entries, 0 interfaces / fields / methods / attributes,
every multi-byte field most-significant-byte first. -/
def minimalBE : List Nat :=
  [0xCA, 0xFE, 0xBA, 0xBE, 0, 0, 0, 61, 0, 4,
   1, 0, 1, 0x41,
   7, 0, 1,
   7, 0, 1,
   0, 0x21, 0, 2, 0, 3, 0, 0, 0, 0, 0, 0, 0, 0]

/-- Concrete input for the unknown-attribute scenario: a constant pool whose
entry 1 is the UTF-8 string "Unk" (no variant decoder matches this name). -/
def attrPool : List ConstantPoolInfo :=
  [.Dummy, .Utf8 { tag := .Utf8, length := 3, data := [85, 110, 107] }]

/-- Concrete input for the unknown-attribute scenario: one attribute with
name index 1, declared payload length 3, followed by the 3 payload bytes
`[9, 9, 9]` (the payload starts at offset 6 and ends at offset 9). -/
def attrBytes : List Nat := [1, 0, 1, 0, 3, 0, 9, 9, 9]

/-- Concrete input: `minimalLE` with its four magic bytes replaced by zeros
(every other field unchanged). -/
def zeroMagicBytes : List Nat :=
  [0, 0, 0, 0, 0, 0, 61, 0, 4, 0,
   1, 1, 0, 0x41,
   7, 1, 0,
   7, 1, 0,
   0x21, 0, 2, 0, 3, 0, 0, 0, 0, 0, 0, 0, 0, 0]

/-- Concrete constant-pool section: count 4, a `Long` entry (8 data bytes,
value 1) occupying indices 1 and 2 under the two-slot rule, and a `Class`
entry at index 3. -/
def cpWideBytes : List Nat := [4, 0, 5, 1, 0, 0, 0, 0, 0, 0, 0, 7, 1, 0]

/-- The pool decoded from `cpWideBytes` (checked by `rfl` below). -/
def cpWidePool : List ConstantPoolInfo :=
  [.Dummy, .Long { tag := .Long, data := 1 }, .Dummy,
   .Class { tag := .Class, name_index := 1 }]

/-- A constant pool whose entry 1 is a `Class` entry, not UTF-8 (for the
attribute-name resolution failure scenario). -/
def notUtf8Pool : List ConstantPoolInfo :=
  [.Dummy, .Class { tag := .Class, name_index := 1 }]

/-- An entry that occupies two constant-pool slots (8-byte valued): `Long` or
`Double`. -/
def isWide : ConstantPoolInfo → Bool
  | .Long _ => true
  | .Double _ => true
  | _ => false

/-- Shape invariant of the constant-pool loop relative to its accumulator:
running with `r` remaining logical indices appends a block `new` of actual
entries with `r ≤ new.length ≤ r + 1` (the `+ 1` overshoot happens exactly
when a wide entry consumes the last remaining index, in which case the block
ends in that wide entry plus its placeholder), and inside the block every wide
entry is immediately followed by a `Dummy` placeholder that is itself part of
the block. -/
def PoolShape (r : Nat) (constants pool : List ConstantPoolInfo) : Prop :=
  ∃ new, pool = constants ++ new ∧
    r ≤ new.length ∧ new.length ≤ r + 1 ∧
    (new.length = r + 1 →
      2 ≤ new.length ∧ isWide (new.getD (new.length - 2) .Dummy) = true) ∧
    (∀ j, isWide (new.getD j .Dummy) = true →
      new.getD (j + 1) .Dummy = .Dummy ∧ j + 1 < new.length)

/-- Whether a constant-pool entry is the `Utf8` variant (the only one accepted
by `utf8_info_as_str`). -/
def isUtf8Info : ConstantPoolInfo → Bool
  | .Utf8 _ => true
  | _ => false

/-- A decoding step is *stable* when every successful run is reproduced
verbatim on any truncation of the input that still contains all the consumed
bytes, and turns into the `split_at` bounds panic on any truncation (at or
after the start offset) that cuts into the consumed bytes.  Every decoder in
this development is stable: reads look only at consumed bytes, and the first
read that crosses the truncation point raises `boundsPanic`. -/
def Stable {α : Type} (d : Dec α) : Prop :=
  ∀ bs p a q, d bs p = .ok (a, q) →
    p ≤ q ∧
    ∀ n, p ≤ n →
      d (bs.take n) p = if q ≤ n then .ok (a, q) else .error .boundsPanic

theorem stable_pureD {α : Type} (a : α) : Stable (pureD a) := by
  intro bs p a' q h
  simp only [pureD, Except.ok.injEq, Prod.mk.injEq] at h
  obtain ⟨ha, hq⟩ := h
  subst ha; subst hq
  refine ⟨le_refl p, ?_⟩
  intro n hn
  simp [pureD, hn]

theorem stable_errD {α : Type} (e : DecodeError) : Stable (errD e : Dec α) := by
  intro bs p a q h
  simp [errD] at h

theorem stable_liftE {α : Type} (r : Except DecodeError α) : Stable (liftE r) := by
  intro bs p a q h
  cases r with
  | error e => simp [liftE] at h
  | ok a0 =>
    simp only [liftE, Except.ok.injEq, Prod.mk.injEq] at h
    obtain ⟨ha, hq⟩ := h
    subst ha; subst hq
    refine ⟨le_refl p, ?_⟩
    intro n hn
    simp [liftE, hn]

theorem stable_split_at (m : Nat) : Stable (split_at m) := by
  intro bs p a q h
  simp only [split_at] at h
  by_cases hle : p + m ≤ bs.length
  · simp only [hle, if_true, Except.ok.injEq, Prod.mk.injEq] at h
    obtain ⟨ha, hq⟩ := h
    subst ha; subst hq
    refine ⟨Nat.le_add_right p m, ?_⟩
    intro n hn
    by_cases hcase : p + m ≤ n
    · have hlen : p + m ≤ (bs.take n).length := by
        simp [List.length_take]
        omega
      have hhead : ((bs.take n).drop p).take m = (bs.drop p).take m := by
        rw [List.drop_take]
        rw [List.take_take]
        congr 1
        omega
      simp [split_at, hlen, hhead, hcase, hle]
    · have hlen : ¬ p + m ≤ (bs.take n).length := by
        simp [List.length_take]
        omega
      simp [split_at, hlen, hcase]
  · simp [hle] at h

theorem stable_andThen {α β : Type} {d1 : Dec α} {d2 : α → Dec β}
    (h1 : Stable d1) (h2 : ∀ a, Stable (d2 a)) : Stable (andThen d1 d2) := by
  intro bs p b q h
  simp only [andThen] at h
  cases hrun : d1 bs p with
  | error e => rw [hrun] at h; exact absurd h (by simp)
  | ok v =>
    obtain ⟨a, p1⟩ := v
    rw [hrun] at h
    obtain ⟨hp1, hstep1⟩ := h1 bs p a p1 hrun
    obtain ⟨hq1, hstep2⟩ := h2 a bs p1 b q h
    refine ⟨le_trans hp1 hq1, ?_⟩
    intro n hn
    by_cases hcut1 : p1 ≤ n
    · have e1 := hstep1 n hn
      rw [if_pos hcut1] at e1
      have e2 := hstep2 n hcut1
      simp only [andThen, e1]
      exact e2
    · have e1 := hstep1 n hn
      rw [if_neg hcut1] at e1
      have : ¬ q ≤ n := by omega
      simp only [andThen, e1, this, if_false]

theorem stable_decode_class_info : Stable decode_class_info :=
  stable_andThen (stable_split_at 2) fun _ => stable_pureD _

theorem stable_decode_field_ref_info : Stable decode_field_ref_info :=
  stable_andThen (stable_split_at 2) fun _ =>
  stable_andThen (stable_split_at 2) fun _ => stable_pureD _

theorem stable_decode_method_ref_info : Stable decode_method_ref_info :=
  stable_andThen (stable_split_at 2) fun _ =>
  stable_andThen (stable_split_at 2) fun _ => stable_pureD _

theorem stable_decode_interface_method_ref_info :
    Stable decode_interface_method_ref_info :=
  stable_andThen (stable_split_at 2) fun _ =>
  stable_andThen (stable_split_at 2) fun _ => stable_pureD _

theorem stable_decode_string_info : Stable decode_string_info :=
  stable_andThen (stable_split_at 2) fun _ => stable_pureD _

theorem stable_decode_integer_info : Stable decode_integer_info :=
  stable_andThen (stable_split_at 4) fun _ => stable_pureD _

theorem stable_decode_float_info (hostLE : Bool) :
    Stable (decode_float_info hostLE) :=
  stable_andThen (stable_split_at 4) fun _ => stable_pureD _

theorem stable_decode_long_info : Stable decode_long_info :=
  stable_andThen (stable_split_at 8) fun _ => stable_pureD _

theorem stable_decode_double_info (hostLE : Bool) :
    Stable (decode_double_info hostLE) :=
  stable_andThen (stable_split_at 8) fun _ => stable_pureD _

theorem stable_decode_name_and_type_info : Stable decode_name_and_type_info :=
  stable_andThen (stable_split_at 2) fun _ =>
  stable_andThen (stable_split_at 2) fun _ => stable_pureD _

theorem stable_decode_utf8_info : Stable decode_utf8_info :=
  stable_andThen (stable_split_at 2) fun head =>
  stable_andThen (stable_split_at (read_u16 head)) fun _ => stable_pureD _

theorem stable_decode_method_handle_info : Stable decode_method_handle_info :=
  stable_andThen (stable_split_at 1) fun _ =>
  stable_andThen (stable_split_at 2) fun _ => stable_pureD _

theorem stable_decode_method_type_info : Stable decode_method_type_info :=
  stable_andThen (stable_split_at 2) fun _ => stable_pureD _

theorem stable_decode_dynamic_info : Stable decode_dynamic_info :=
  stable_andThen (stable_split_at 2) fun _ =>
  stable_andThen (stable_split_at 2) fun _ => stable_pureD _

theorem stable_decode_invoke_dynamic_info : Stable decode_invoke_dynamic_info :=
  stable_andThen (stable_split_at 2) fun _ =>
  stable_andThen (stable_split_at 2) fun _ => stable_pureD _

theorem stable_decode_module_info : Stable decode_module_info :=
  stable_andThen (stable_split_at 2) fun _ => stable_pureD _

theorem stable_decode_package_info : Stable decode_package_info :=
  stable_andThen (stable_split_at 2) fun _ => stable_pureD _

theorem stable_cpStep (hostLE : Bool)
    {kNarrow kWide : List ConstantPoolInfo → Dec (List ConstantPoolInfo)}
    (hN : ∀ acc, Stable (kNarrow acc)) (hW : ∀ acc, Stable (kWide acc))
    (constants : List ConstantPoolInfo) :
    Stable (cpStep hostLE kNarrow kWide constants) := by
  rw [cpStep]
  refine stable_andThen (stable_split_at 1) fun head => ?_
  cases hk : ConstantKind.fromU8? (head.getD 0 0) with
  | none => simp only [hk]; exact stable_errD _
  | some k =>
    cases k <;> simp only [hk]
    case Utf8 =>
      exact stable_andThen stable_decode_utf8_info fun info => hN _
    case Integer =>
      exact stable_andThen stable_decode_integer_info fun info => hN _
    case Float =>
      exact stable_andThen (stable_decode_float_info hostLE) fun info => hN _
    case Long =>
      exact stable_andThen stable_decode_long_info fun info => hW _
    case Double =>
      exact stable_andThen (stable_decode_double_info hostLE) fun info => hW _
    case Class =>
      exact stable_andThen stable_decode_class_info fun info => hN _
    case String =>
      exact stable_andThen stable_decode_string_info fun info => hN _
    case FieldRef =>
      exact stable_andThen stable_decode_field_ref_info fun info => hN _
    case MethodRef =>
      exact stable_andThen stable_decode_method_ref_info fun info => hN _
    case InterfaceMethodRef =>
      exact stable_andThen stable_decode_interface_method_ref_info fun info => hN _
    case NameAndType =>
      exact stable_andThen stable_decode_name_and_type_info fun info => hN _
    case MethodHandle =>
      exact stable_andThen stable_decode_method_handle_info fun info => hN _
    case MethodType =>
      exact stable_andThen stable_decode_method_type_info fun info => hN _
    case Dynamic =>
      exact stable_andThen stable_decode_dynamic_info fun info => hN _
    case InvokeDynamic =>
      exact stable_andThen stable_decode_invoke_dynamic_info fun info => hN _
    case Module =>
      exact stable_andThen stable_decode_module_info fun info => hN _
    case Package =>
      exact stable_andThen stable_decode_package_info fun info => hN _

theorem stable_cpLoop (hostLE : Bool) :
    ∀ r constants, Stable (cpLoop hostLE r constants) := by
  intro r
  induction r using Nat.strong_induction_on with
  | _ r IH =>
    intro constants
    match r with
    | 0 => exact stable_pureD _
    | 1 =>
      rw [cpLoop]
      exact stable_cpStep hostLE (fun acc => stable_pureD _)
        (fun acc => stable_pureD _) constants
    | r + 2 =>
      rw [cpLoop]
      exact stable_cpStep hostLE (fun acc => IH (r + 1) (by omega) acc)
        (fun acc => IH r (by omega) acc) constants

theorem stable_decode_constant_pool (hostLE : Bool) :
    Stable (decode_constant_pool hostLE) :=
  stable_andThen (stable_split_at 2) fun head =>
  stable_cpLoop hostLE (read_u16 head - 1) [.Dummy]

theorem stable_attrLoop (constant_pool : List ConstantPoolInfo) :
    ∀ k attributes, Stable (attrLoop constant_pool k attributes) := by
  intro k
  induction k with
  | zero => intro attributes; exact stable_pureD _
  | succ k IH =>
    intro attributes
    exact stable_andThen (stable_split_at 2) fun head =>
      stable_andThen (stable_liftE _) fun _name =>
      stable_andThen (stable_split_at 2) fun _head2 =>
      IH attributes

theorem stable_decode_attributes (constant_pool : List ConstantPoolInfo) :
    Stable (decode_attributes constant_pool) :=
  stable_andThen (stable_split_at 2) fun head =>
  stable_attrLoop constant_pool (read_u16 head) []

theorem stable_decode_this_or_super_class : Stable decode_this_or_super_class :=
  stable_andThen (stable_split_at 2) fun _ => stable_pureD _

theorem stable_interfacesLoop :
    ∀ k interfaces, Stable (interfacesLoop k interfaces) := by
  intro k
  induction k with
  | zero => intro interfaces; exact stable_pureD _
  | succ k IH =>
    intro interfaces
    exact stable_andThen (stable_split_at 2) fun head => IH _

theorem stable_decode_interfaces : Stable decode_interfaces :=
  stable_andThen (stable_split_at 2) fun head =>
  stable_interfacesLoop (read_u16 head) []

theorem stable_fieldsLoop (constant_pool : List ConstantPoolInfo) :
    ∀ k fields, Stable (fieldsLoop constant_pool k fields) := by
  intro k
  induction k with
  | zero => intro fields; exact stable_pureD _
  | succ k IH =>
    intro fields
    exact stable_andThen (stable_split_at 2) fun _ =>
      stable_andThen (stable_split_at 2) fun _ =>
      stable_andThen (stable_split_at 2) fun _ =>
      stable_andThen (stable_decode_attributes constant_pool) fun _ =>
      IH _

theorem stable_decode_fields (constant_pool : List ConstantPoolInfo) :
    Stable (decode_fields constant_pool) :=
  stable_andThen (stable_split_at 2) fun head =>
  stable_fieldsLoop constant_pool (read_u16 head) []

theorem stable_methodsLoop (constant_pool : List ConstantPoolInfo) :
    ∀ k methods, Stable (methodsLoop constant_pool k methods) := by
  intro k
  induction k with
  | zero => intro methods; exact stable_pureD _
  | succ k IH =>
    intro methods
    exact stable_andThen (stable_split_at 2) fun _ =>
      stable_andThen (stable_split_at 2) fun _ =>
      stable_andThen (stable_split_at 2) fun _ =>
      stable_andThen (stable_decode_attributes constant_pool) fun _ =>
      IH _

theorem stable_decode_methods (constant_pool : List ConstantPoolInfo) :
    Stable (decode_methods constant_pool) :=
  stable_andThen (stable_split_at 2) fun head =>
  stable_methodsLoop constant_pool (read_u16 head) []

theorem stable_decodeD (hostLE : Bool) : Stable (decodeD hostLE) :=
  stable_andThen (stable_split_at 4) fun _ =>
  stable_andThen (stable_split_at 2) fun _ =>
  stable_andThen (stable_split_at 2) fun _ =>
  stable_andThen (stable_decode_constant_pool hostLE) fun constant_pool =>
  stable_andThen (stable_split_at 2) fun _ =>
  stable_andThen stable_decode_this_or_super_class fun _ =>
  stable_andThen stable_decode_this_or_super_class fun _ =>
  stable_andThen stable_decode_interfaces fun _ =>
  stable_andThen (stable_decode_fields constant_pool) fun _ =>
  stable_andThen (stable_decode_methods constant_pool) fun _ =>
  stable_andThen (stable_decode_attributes constant_pool) fun _ =>
  stable_pureD _

theorem andThen_ok {α β : Type} {d1 : Dec α} {d2 : α → Dec β} {bs : List Nat}
    {p : Nat} {b : β} {q : Nat} :
    andThen d1 d2 bs p = .ok (b, q) ↔
      ∃ a p1, d1 bs p = .ok (a, p1) ∧ d2 a bs p1 = .ok (b, q) := by
  constructor
  · intro h
    cases hrun : d1 bs p with
    | error e => rw [andThen, hrun] at h; exact absurd h (by simp)
    | ok v =>
      obtain ⟨a, p1⟩ := v
      rw [andThen, hrun] at h
      exact ⟨a, p1, rfl, h⟩
  · rintro ⟨a, p1, h1, h2⟩
    rw [andThen, h1]
    exact h2

theorem pureD_ok {α : Type} {a b : α} {bs : List Nat} {p q : Nat} :
    pureD a bs p = .ok (b, q) ↔ b = a ∧ q = p := by
  simp only [pureD, Except.ok.injEq, Prod.mk.injEq]
  tauto

theorem liftE_ok {α : Type} {r : Except DecodeError α} {a : α} {bs : List Nat}
    {p q : Nat} : liftE r bs p = .ok (a, q) ↔ r = .ok a ∧ q = p := by
  cases r with
  | error e => simp [liftE]
  | ok a0 => simp only [liftE, Except.ok.injEq, Prod.mk.injEq]; tauto

theorem split_at_ok {n : Nat} {bs h : List Nat} {p q : Nat} :
    split_at n bs p = .ok (h, q) ↔
      p + n ≤ bs.length ∧ h = (bs.drop p).take n ∧ q = p + n := by
  by_cases hle : p + n ≤ bs.length
  · simp only [split_at, hle, if_true, Except.ok.injEq, Prod.mk.injEq, true_and]
    tauto
  · simp [split_at, hle]

/-- The attribute loop returns its accumulator unchanged: with every dispatch
arm commented out in the source, no iteration inserts anything. -/
theorem attrLoop_acc (constant_pool : List ConstantPoolInfo) :
    ∀ k attributes bs p m q,
      attrLoop constant_pool k attributes bs p = .ok (m, q) → m = attributes := by
  intro k
  induction k with
  | zero =>
    intro attributes bs p m q h
    rw [attrLoop, pureD_ok] at h
    exact h.1
  | succ k IH =>
    intro attributes bs p m q h
    rw [attrLoop] at h
    rw [andThen_ok] at h
    obtain ⟨head, p1, _h1, h⟩ := h
    rw [andThen_ok] at h
    obtain ⟨name, p2, _h2, h⟩ := h
    rw [andThen_ok] at h
    obtain ⟨head2, p3, _h3, h⟩ := h
    exact IH attributes bs p3 m q h

/-- `decode_attributes` always returns the empty dictionary. -/
theorem decode_attributes_empty (constant_pool : List ConstantPoolInfo)
    (bs : List Nat) (p : Nat) (m : AttrMap) (q : Nat)
    (h : decode_attributes constant_pool bs p = .ok (m, q)) : m = [] := by
  rw [decode_attributes, andThen_ok] at h
  obtain ⟨head, p1, _h1, h⟩ := h
  exact attrLoop_acc constant_pool (read_u16 head) [] bs p1 m q h

/-- Every field record produced by the fields loop carries an empty attribute
dictionary (given that the accumulator already does). -/
theorem fieldsLoop_attrs (constant_pool : List ConstantPoolInfo) :
    ∀ k fields bs p fs q,
      fieldsLoop constant_pool k fields bs p = .ok (fs, q) →
      (∀ f ∈ fields, f.attributes = []) →
      ∀ f ∈ fs, f.attributes = [] := by
  intro k
  induction k with
  | zero =>
    intro fields bs p fs q h hacc
    rw [fieldsLoop, pureD_ok] at h
    rw [h.1]
    exact hacc
  | succ k IH =>
    intro fields bs p fs q h hacc
    rw [fieldsLoop] at h
    rw [andThen_ok] at h
    obtain ⟨head, p1, _h1, h⟩ := h
    rw [andThen_ok] at h
    obtain ⟨head2, p2, _h2, h⟩ := h
    rw [andThen_ok] at h
    obtain ⟨head3, p3, _h3, h⟩ := h
    rw [andThen_ok] at h
    obtain ⟨attrs, p4, hattrs, h⟩ := h
    refine IH _ bs p4 fs q h ?_
    intro f hf
    rcases List.mem_append.mp hf with hf | hf
    · exact hacc f hf
    · rcases List.mem_singleton.mp hf with rfl
      exact decode_attributes_empty constant_pool bs p3 attrs p4 hattrs

/-- Every method record produced by the methods loop carries an empty
attribute dictionary (given that the accumulator already does). -/
theorem methodsLoop_attrs (constant_pool : List ConstantPoolInfo) :
    ∀ k methods bs p ms q,
      methodsLoop constant_pool k methods bs p = .ok (ms, q) →
      (∀ m ∈ methods, m.attributes = []) →
      ∀ m ∈ ms, m.attributes = [] := by
  intro k
  induction k with
  | zero =>
    intro methods bs p ms q h hacc
    rw [methodsLoop, pureD_ok] at h
    rw [h.1]
    exact hacc
  | succ k IH =>
    intro methods bs p ms q h hacc
    rw [methodsLoop] at h
    rw [andThen_ok] at h
    obtain ⟨head, p1, _h1, h⟩ := h
    rw [andThen_ok] at h
    obtain ⟨head2, p2, _h2, h⟩ := h
    rw [andThen_ok] at h
    obtain ⟨head3, p3, _h3, h⟩ := h
    rw [andThen_ok] at h
    obtain ⟨attrs, p4, hattrs, h⟩ := h
    refine IH _ bs p4 ms q h ?_
    intro m hm
    rcases List.mem_append.mp hm with hm | hm
    · exact hacc m hm
    · rcases List.mem_singleton.mp hm with rfl
      exact decode_attributes_empty constant_pool bs p3 attrs p4 hattrs

/-- Inversion of a successful top-level `decodeD` run: the produced record's
fields are exactly the reads of the corresponding spans, in source order. -/
theorem decodeD_ok_inv {hostLE : Bool} {bs : List Nat} {cf : JavaClassFile}
    {q : Nat} (h : decodeD hostLE bs 0 = .ok (cf, q)) :
    cf.magic = read_u32 (bs.take 4) ∧
    (∃ p1 p2 p3 p4,
      decode_constant_pool hostLE bs 8 = .ok (cf.constant_pool, p1) ∧
      decode_fields cf.constant_pool bs p2 = .ok (cf.fields, p3) ∧
      decode_methods cf.constant_pool bs p3 = .ok (cf.methods, p4) ∧
      decode_attributes cf.constant_pool bs p4 = .ok (cf.attributes, q)) := by
  rw [decodeD] at h
  rw [andThen_ok] at h
  obtain ⟨head0, q0, h0, h⟩ := h
  rw [andThen_ok] at h
  obtain ⟨head1, q1, h1, h⟩ := h
  rw [andThen_ok] at h
  obtain ⟨head2, q2, h2, h⟩ := h
  rw [andThen_ok] at h
  obtain ⟨constant_pool, q3, h3, h⟩ := h
  rw [andThen_ok] at h
  obtain ⟨head3, q4, h4, h⟩ := h
  rw [andThen_ok] at h
  obtain ⟨this_class, q5, h5, h⟩ := h
  rw [andThen_ok] at h
  obtain ⟨super_class, q6, h6, h⟩ := h
  rw [andThen_ok] at h
  obtain ⟨interfaces, q7, h7, h⟩ := h
  rw [andThen_ok] at h
  obtain ⟨fields, q8, h8, h⟩ := h
  rw [andThen_ok] at h
  obtain ⟨methods, q9, h9, h⟩ := h
  rw [andThen_ok] at h
  obtain ⟨attributes, q10, h10, h⟩ := h
  rw [pureD_ok] at h
  obtain ⟨hcf, hq⟩ := h
  subst hcf
  rw [split_at_ok] at h0 h1 h2
  obtain ⟨_, hhead0, hq0⟩ := h0
  obtain ⟨_, _, hq1⟩ := h1
  obtain ⟨_, _, hq2⟩ := h2
  subst hhead0
  constructor
  · simp
  · refine ⟨q3, q7, q8, q9, ?_, ?_, ?_, ?_⟩
    · have : q2 = 8 := by omega
      rw [← this]
      exact h3
    · exact h8
    · exact h9
    · rw [← hq] at h10
      exact h10

theorem poolShape_nil (constants : List ConstantPoolInfo) :
    PoolShape 0 constants constants := by
  refine ⟨[], by simp, by simp, by simp, by simp, ?_⟩
  intro j hj
  simp [List.getD, isWide] at hj

theorem poolShape_cons_narrow {r : Nat} {constants pool : List ConstantPoolInfo}
    (e : ConstantPoolInfo) (he : isWide e = false)
    (h : PoolShape r (constants ++ [e]) pool) : PoolShape (r + 1) constants pool := by
  obtain ⟨new, hpool, hlo, hhi, hover, hwide⟩ := h
  refine ⟨e :: new, ?_, ?_, ?_, ?_, ?_⟩
  · rw [hpool, List.append_assoc]; rfl
  · simp only [List.length_cons]; omega
  · simp only [List.length_cons]; omega
  · intro hlen
    simp only [List.length_cons] at hlen ⊢
    have hlen' : new.length = r + 1 := by omega
    obtain ⟨h2, hw⟩ := hover hlen'
    refine ⟨by omega, ?_⟩
    have hidx : new.length + 1 - 2 = (new.length - 2) + 1 := by omega
    rw [hidx, List.getD_cons_succ]
    exact hw
  · intro j hj
    cases j with
    | zero =>
      rw [List.getD_cons_zero] at hj
      rw [he] at hj
      exact absurd hj (by simp)
    | succ k =>
      rw [List.getD_cons_succ] at hj
      obtain ⟨hd, hlt⟩ := hwide k hj
      refine ⟨?_, ?_⟩
      · rw [List.getD_cons_succ]; exact hd
      · simp only [List.length_cons]; omega

theorem poolShape_cons_wide {r : Nat} {constants pool : List ConstantPoolInfo}
    (e : ConstantPoolInfo)
    (h : PoolShape r (constants ++ [e, .Dummy]) pool) :
    PoolShape (r + 2) constants pool := by
  obtain ⟨new, hpool, hlo, hhi, hover, hwide⟩ := h
  refine ⟨e :: .Dummy :: new, ?_, ?_, ?_, ?_, ?_⟩
  · rw [hpool, List.append_assoc]; rfl
  · simp only [List.length_cons]; omega
  · simp only [List.length_cons]; omega
  · intro hlen
    simp only [List.length_cons] at hlen ⊢
    have hlen' : new.length = r + 1 := by omega
    obtain ⟨h2, hw⟩ := hover hlen'
    refine ⟨by omega, ?_⟩
    have hidx : new.length + 1 + 1 - 2 = (new.length - 2) + 1 + 1 := by omega
    rw [hidx, List.getD_cons_succ, List.getD_cons_succ]
    exact hw
  · intro j hj
    cases j with
    | zero =>
      refine ⟨by rw [List.getD_cons_succ, List.getD_cons_zero], ?_⟩
      simp only [List.length_cons]; omega
    | succ k =>
      cases k with
      | zero =>
        rw [List.getD_cons_succ, List.getD_cons_zero] at hj
        exact absurd hj (by simp [isWide])
      | succ k' =>
        rw [List.getD_cons_succ, List.getD_cons_succ] at hj
        obtain ⟨hd, hlt⟩ := hwide k' hj
        refine ⟨?_, ?_⟩
        · rw [List.getD_cons_succ, List.getD_cons_succ]; exact hd
        · simp only [List.length_cons]; omega

theorem poolShape_wide_over {constants : List ConstantPoolInfo}
    (e : ConstantPoolInfo) (he : isWide e = true) :
    PoolShape 1 constants (constants ++ [e, .Dummy]) := by
  refine ⟨[e, .Dummy], rfl, by simp, by simp, ?_, ?_⟩
  · intro _
    refine ⟨by simp, ?_⟩
    simpa using he
  · intro j hj
    cases j with
    | zero => exact ⟨by rfl, by simp⟩
    | succ k =>
      cases k with
      | zero => exact absurd hj (by simp [isWide])
      | succ k' =>
        exfalso
        have : ([e, ConstantPoolInfo.Dummy].getD (k' + 1 + 1) .Dummy) = .Dummy := by
          rw [List.getD_cons_succ, List.getD_cons_succ]
          simp [List.getD]
        rw [this] at hj
        exact absurd hj (by simp [isWide])

theorem poolShape_single_narrow {constants : List ConstantPoolInfo}
    (e : ConstantPoolInfo) (he : isWide e = false) :
    PoolShape 1 constants (constants ++ [e]) := by
  refine ⟨[e], rfl, by simp, by simp, ?_, ?_⟩
  · intro hlen
    simp at hlen
  · intro j hj
    cases j with
    | zero =>
      rw [List.getD_cons_zero, he] at hj
      exact absurd hj (by simp)
    | succ k =>
      exfalso
      have hD : ([e].getD (k + 1) .Dummy) = .Dummy := by
        rw [List.getD_cons_succ]
        simp [List.getD]
      rw [hD] at hj
      exact absurd hj (by simp [isWide])

theorem cpStep_ok_inv {hostLE : Bool}
    {kNarrow kWide : List ConstantPoolInfo → Dec (List ConstantPoolInfo)}
    {constants : List ConstantPoolInfo} {bs : List Nat} {p : Nat}
    {pool : List ConstantPoolInfo} {q : Nat}
    (h : cpStep hostLE kNarrow kWide constants bs p = .ok (pool, q)) :
    (∃ e p1, isWide e = false ∧ kNarrow (constants ++ [e]) bs p1 = .ok (pool, q)) ∨
    (∃ e p1, isWide e = true ∧
      kWide (constants ++ [e, .Dummy]) bs p1 = .ok (pool, q)) := by
  rw [cpStep, andThen_ok] at h
  obtain ⟨head, p0, _hsp, h⟩ := h
  cases hk : ConstantKind.fromU8? (head.getD 0 0) with
  | none => simp only [hk] at h; simp [errD] at h
  | some k =>
    simp only [hk] at h
    cases k <;>
      (rw [andThen_ok] at h
       obtain ⟨info, p2, _hi, h⟩ := h
       first
         | exact .inl ⟨_, p2, by rfl, h⟩
         | exact .inr ⟨_, p2, by rfl, h⟩)

theorem cpLoop_shape (hostLE : Bool) :
    ∀ r constants bs p pool q,
      cpLoop hostLE r constants bs p = .ok (pool, q) →
      PoolShape r constants pool := by
  intro r
  induction r using Nat.strong_induction_on with
  | _ r IH =>
    intro constants bs p pool q h
    match r with
    | 0 =>
      rw [cpLoop, pureD_ok] at h
      rw [h.1]
      exact poolShape_nil constants
    | 1 =>
      rw [cpLoop] at h
      rcases cpStep_ok_inv h with ⟨e, p1, he, hk⟩ | ⟨e, p1, he, hk⟩
      · rw [pureD_ok] at hk
        rw [hk.1]
        exact poolShape_single_narrow e he
      · rw [pureD_ok] at hk
        rw [hk.1]
        exact poolShape_wide_over e he
    | r + 2 =>
      rw [cpLoop] at h
      rcases cpStep_ok_inv h with ⟨e, p1, he, hk⟩ | ⟨e, p1, he, hk⟩
      · exact poolShape_cons_narrow e he (IH (r + 1) (by omega) _ bs p1 pool q hk)
      · exact poolShape_cons_wide e (IH r (by omega) _ bs p1 pool q hk)

theorem andThen_step {α β : Type} {d1 : Dec α} {d2 : α → Dec β} {bs : List Nat}
    {p : Nat} {a : α} {p1 : Nat} (h : d1 bs p = .ok (a, p1)) :
    andThen d1 d2 bs p = d2 a bs p1 := by
  simp only [andThen, h]

theorem andThen_step_err {α β : Type} {d1 : Dec α} {d2 : α → Dec β}
    {bs : List Nat} {p : Nat} {e : DecodeError} (h : d1 bs p = .error e) :
    andThen d1 d2 bs p = .error e := by
  simp only [andThen, h]

theorem split_at_eq_ok {n : Nat} {bs : List Nat} {p : Nat}
    (h : p + n ≤ bs.length) :
    split_at n bs p = .ok ((bs.drop p).take n, p + n) := by
  simp [split_at, h]

theorem utf8_info_as_str_not_utf8 {constant_pool : List ConstantPoolInfo}
    {e : ConstantPoolInfo} {index : Nat}
    (hget : constant_pool.get? index = some e) (hne : isUtf8Info e = false) :
    utf8_info_as_str constant_pool index = .error .notUtf8Panic := by
  rw [utf8_info_as_str, hget]
  cases e <;> first | rfl | simp [isUtf8Info] at hne

theorem decode_constant_pool_shape {hostLE : Bool} {bs : List Nat} {p : Nat}
    {pool : List ConstantPoolInfo} {q : Nat}
    (h : decode_constant_pool hostLE bs p = .ok (pool, q)) :
    PoolShape (read_u16 ((bs.drop p).take 2) - 1) [.Dummy] pool := by
  rw [decode_constant_pool, andThen_ok] at h
  obtain ⟨head, p1, hsp, h⟩ := h
  rw [split_at_ok] at hsp
  obtain ⟨_, hhead, _⟩ := hsp
  subst hhead
  exact cpLoop_shape hostLE _ _ bs p1 pool q h

theorem decode_fields_attrs {constant_pool : List ConstantPoolInfo}
    {bs : List Nat} {p : Nat} {fs : List FieldInfo} {q : Nat}
    (h : decode_fields constant_pool bs p = .ok (fs, q)) :
    ∀ f ∈ fs, f.attributes = [] := by
  rw [decode_fields, andThen_ok] at h
  obtain ⟨head, p1, _h1, h⟩ := h
  exact fieldsLoop_attrs constant_pool (read_u16 head) [] bs p1 fs q h
    (by intro f hf; simp at hf)

theorem decode_methods_attrs {constant_pool : List ConstantPoolInfo}
    {bs : List Nat} {p : Nat} {ms : List MethodInfo} {q : Nat}
    (h : decode_methods constant_pool bs p = .ok (ms, q)) :
    ∀ m ∈ ms, m.attributes = [] := by
  rw [decode_methods, andThen_ok] at h
  obtain ⟨head, p1, _h1, h⟩ := h
  exact methodsLoop_attrs constant_pool (read_u16 head) [] bs p1 ms q h
    (by intro m hm; simp at hm)

theorem test_two_pow (k f : Nat) : ((2 ^ k &&& f) != 0) = true ↔ f.testBit k = true := by
  rw [bne_iff_ne, ne_eq, Nat.two_pow_and]
  constructor
  · intro h
    by_contra hb
    simp only [Bool.not_eq_true] at hb
    simp [hb] at h
  · intro h
    simp [h]

/-- C1 (as stated, refuted): the claim asserts that every fixed-width read on
a span holding fewer bytes than required "fails with a truncation error
rather than reading out of bounds or succeeding".  In the source the
fixed-width readers perform no bounds check at all: `read_u16` on a 1-byte
span performs an unchecked pointer read past the span.  Concretely, two
backing memories whose 1-byte spans are identical (`[0]`) give different
`read_u16` results — the read *succeeds* and its value depends on memory
outside the span. -/
theorem read_fixed_width_reads_out_of_bounds :
    (([0, 5] : List Nat).drop 0).take 1 = (([0, 9] : List Nat).drop 0).take 1 ∧
    read_u16_ptr [0, 5] 0 1 ≠ read_u16_ptr [0, 9] 0 1 ∧
    read_u16_ptr [0, 5] 0 1 = 1280 := by decide

/-- C1 (amended): the raw fixed-width readers are unchecked, but inside
`decode` every read is guarded by `split_at`, which panics (`boundsPanic`)
when fewer bytes remain than the read requires.  Consequently decoding any
truncation of an input that `decode` fully consumes never succeeds and never
reads past the truncated span: it always aborts with the `split_at` bounds
panic — a panic, not a recoverable truncation error value (the source has no
error type at all). -/
theorem truncated_decode_never_succeeds (hostLE : Bool) (bs : List Nat)
    (cf : JavaClassFile) (k n : Nat)
    (hrun : decodeD hostLE bs 0 = .ok (cf, k)) (hn : n < k) :
    decode hostLE (bs.take n) = .error .boundsPanic := by
  obtain ⟨-, hstep⟩ := stable_decodeD hostLE bs 0 cf k hrun
  have h := hstep n (Nat.zero_le n)
  rw [if_neg (by omega)] at h
  rw [decode, h]

/-- Witness for C1's amended theorem: the 34-byte input `minimalLE` decodes
fully; truncating it to 33 bytes makes `decode` abort with the bounds
panic. -/
theorem truncated_decode_never_succeeds_witness :
    decode true (minimalLE.take 33) = .error .boundsPanic :=
  truncated_decode_never_succeeds true minimalLE minimalLETree 34 33 rfl
    (by decide)

/-- C2 (code bug): the spec mandates big-endian ("network order")
interpretation for every multi-byte numeric field, matching the class-file
format the source's own doc comments cite.  The integer readers instead
produce the little-endian interpretation on every host (`to_le` after a
native pointer read): the big-endian 32-bit integer `1` (bytes
`[0, 0, 0, 1]`) decodes to `16777216`, and `[0x12, 0x34]` decodes to
`0x3412` instead of `0x1234`; the float readers unconditionally byte-swap
the native read, so their result differs between little- and big-endian
hosts (shown on the 8-byte big-endian encoding of `1.0`), contradicting
"regardless of host byte order". -/
theorem numeric_reads_little_endian_not_big_endian :
    read_i32 [0, 0, 0, 1] = 16777216 ∧ (16777216 : Int) ≠ 1 ∧
    read_u16 [0x12, 0x34] = 0x3412 ∧
    read_f64_bits true [0x3F, 0xF0, 0, 0, 0, 0, 0, 0] = 0x3FF0000000000000 ∧
    read_f64_bits false [0x3F, 0xF0, 0, 0, 0, 0, 0, 0] ≠ 0x3FF0000000000000 := by
  decide

/-- C3 (code bug): the spec says an attribute whose resolved name matches no
variant decoder has its `length` payload bytes skipped, so decoding resumes
at payload-start + L.  In the source the skip is commented out (the function
is marked `TODO`): after reading the name index and the length field the
loop continues at the payload start.  On a dictionary with one unknown
attribute of declared length 3 the decoder returns at offset 6 (= payload
start), not 9 (= payload start + 3), so the 3 payload bytes `[9, 9, 9]`
would be misparsed as the next attribute; the entry itself is indeed
omitted (the dictionary comes back empty).  The source also reads the
length field as 16 bits where the class-file format declares 32. -/
theorem unknown_attribute_payload_not_skipped :
    decode_attributes attrPool attrBytes 0 = .ok ([], 6) ∧
    attrBytes.length = 9 ∧ (6 : Nat) ≠ 6 + 3 :=
  ⟨rfl, rfl, by decide⟩

/-- C4 (confirmed): for a successful constant-pool decode of a valid input —
declared count at least 1 (the format reserves index 0) and every two-slot
entry's pair of slots falling within the declared count, which is exactly
what the class-file format guarantees — the decoded pool has exactly `count`
entries counting the reserved slot 0, slot 0 is the unpopulated `Dummy`
placeholder, and every `Long`/`Double` entry is immediately followed by an
in-range `Dummy` placeholder slot. -/
theorem constant_pool_count_invariant (hostLE : Bool) (bs : List Nat) (p : Nat)
    (pool : List ConstantPoolInfo) (q : Nat) (count : Nat)
    (hrun : decode_constant_pool hostLE bs p = .ok (pool, q))
    (hcount : count = read_u16 ((bs.drop p).take 2))
    (hpos : 1 ≤ count)
    (hfit : ∀ j, j < pool.length →
      isWide (pool.getD j .Dummy) = true → j + 2 ≤ count) :
    pool.length = count ∧ pool.getD 0 .Dummy = .Dummy ∧
      ∀ j, isWide (pool.getD j .Dummy) = true →
        pool.getD (j + 1) .Dummy = .Dummy ∧ j + 1 < pool.length := by
  have hshape := decode_constant_pool_shape hrun
  rw [← hcount] at hshape
  obtain ⟨new, hpool, hlo, hhi, hover, hwide⟩ := hshape
  rw [List.singleton_append] at hpool
  subst hpool
  have hlen : new.length = count - 1 := by
    by_contra hne
    have hlen1 : new.length = count := by omega
    obtain ⟨h2, hw⟩ := hover (by omega)
    have hj : isWide ((ConstantPoolInfo.Dummy :: new).getD
        ((new.length - 2) + 1) .Dummy) = true := by
      rw [List.getD_cons_succ]
      exact hw
    have := hfit ((new.length - 2) + 1) (by simp [List.length_cons]; omega) hj
    omega
  refine ⟨by simp [List.length_cons]; omega, by rw [List.getD_cons_zero], ?_⟩
  intro j hj
  cases j with
  | zero =>
    rw [List.getD_cons_zero] at hj
    exact absurd hj (by simp [isWide])
  | succ k =>
    rw [List.getD_cons_succ] at hj
    obtain ⟨hd, hlt⟩ := hwide k hj
    refine ⟨by rw [List.getD_cons_succ]; exact hd, ?_⟩
    simp only [List.length_cons]
    omega

/-- Witness for C4: the concrete pool section `cpWideBytes` (count 4, one
`Long` at index 1, one `Class` at index 3) decodes to a 4-entry pool whose
slot 0 is `Dummy` and whose `Long` entry is followed by a `Dummy` slot. -/
theorem constant_pool_count_invariant_witness :
    cpWidePool.length = 4 ∧ cpWidePool.getD 0 .Dummy = .Dummy ∧
      ∀ j, isWide (cpWidePool.getD j .Dummy) = true →
        cpWidePool.getD (j + 1) .Dummy = .Dummy ∧ j + 1 < cpWidePool.length :=
  constant_pool_count_invariant true cpWideBytes 0 cpWidePool 14 4 rfl rfl
    (by decide) (by decide)

/-- C5 (code bug): a genuine minimal class file — big-endian, as the format
and the spec prescribe, with one UTF-8 entry, the two class entries for
this/super, and 0 interfaces/fields/methods/attributes — does not decode to
the described 4-entry tree: the little-endian readers misread its
constant-pool count `[0, 4]` as 1024, the decoder then runs off the end of
the input and aborts with the `split_at` bounds panic. -/
theorem minimal_class_file_decode_panics :
    decode true minimalBE = .error .boundsPanic ∧
    read_u16 ((minimalBE.drop 8).take 2) = 1024 :=
  ⟨rfl, rfl⟩

theorem cpStep_unknown_tag {hostLE : Bool}
    {kNarrow kWide : List ConstantPoolInfo → Dec (List ConstantPoolInfo)}
    {constants : List ConstantPoolInfo} {bs : List Nat} {p : Nat}
    (hlen : p + 1 ≤ bs.length)
    (htag : ConstantKind.fromU8? (((bs.drop p).take 1).getD 0 0) = none) :
    cpStep hostLE kNarrow kWide constants bs p = .error .unknownKindPanic := by
  rw [cpStep, andThen_step (split_at_eq_ok hlen)]
  simp only [htag]
  rfl

/-- C6 (confirmed): whenever the constant-pool decoder reaches a tag byte
outside the modeled constant kinds (with the declared count at least 2 so
the entry loop runs at all), the decode fails with the fatal
`ConstantKind::from` panic ("Unknown ConstantKind value"); it never defaults,
skips or continues. -/
theorem unknown_constant_tag_fatal (hostLE : Bool) (bs : List Nat) (p : Nat)
    (hcount : 2 ≤ read_u16 ((bs.drop p).take 2))
    (hlen : p + 3 ≤ bs.length)
    (htag : ConstantKind.fromU8? (((bs.drop (p + 2)).take 1).getD 0 0) = none) :
    decode_constant_pool hostLE bs p = .error .unknownKindPanic := by
  rw [decode_constant_pool, andThen_step (split_at_eq_ok (by omega))]
  cases hm : read_u16 ((bs.drop p).take 2) - 1 with
  | zero => omega
  | succ m =>
    cases m with
    | zero =>
      rw [cpLoop]
      exact cpStep_unknown_tag (by omega) htag
    | succ m' =>
      rw [cpLoop]
      exact cpStep_unknown_tag (by omega) htag

/-- Witness for C6: the pool section `[2, 0, 2]` declares count 2 and then
presents the unknown tag byte 2; decoding fails with the unknown-kind
panic. -/
theorem unknown_constant_tag_fatal_witness :
    decode_constant_pool true [2, 0, 2] 0 = .error .unknownKindPanic :=
  unknown_constant_tag_fatal true [2, 0, 2] 0 (by decide) (by decide) (by decide)

/-- C7 (as stated, refuted): `decode` never compares the magic number against
`CLASS_FILE_MAGIC`: an input whose leading 32 bits are all zero — not the
format's fixed constant — still decodes to a complete tree (with the bogus
magic recorded in it), instead of reporting a format-identification
failure. -/
theorem decode_accepts_wrong_magic :
    decode true zeroMagicBytes = .ok { minimalLETree with magic := 0 } ∧
    (0 : Nat) ≠ CLASS_FILE_MAGIC :=
  ⟨rfl, by decide⟩

/-- C7 (amended): `decode` merely records the 32-bit value read from the
first four bytes in the returned tree's `magic` field and succeeds or fails
independently of its value; checking it against `CLASS_FILE_MAGIC` is left
entirely to the caller. -/
theorem decode_magic_recorded_not_checked (hostLE : Bool) (bs : List Nat)
    (cf : JavaClassFile) (q : Nat) (hrun : decodeD hostLE bs 0 = .ok (cf, q)) :
    cf.magic = read_u32 (bs.take 4) :=
  (decodeD_ok_inv hrun).1

/-- Witness for C7's amended theorem, at the concrete input `minimalLE`. -/
theorem decode_magic_recorded_not_checked_witness :
    minimalLETree.magic = read_u32 (minimalLE.take 4) :=
  decode_magic_recorded_not_checked true minimalLE minimalLETree 34 rfl

/-- C8 (confirmed): each attribute-dictionary entry's 16-bit name index is
resolved against the constant pool and must designate a UTF-8 entry; if the
entry at that index is any other constant-pool variant, `decode_attributes`
fails with the fatal resolution panic ("Not Utf8 ConstantPool Error"). -/
theorem attribute_name_must_be_utf8 (constant_pool : List ConstantPoolInfo)
    (bs : List Nat) (p : Nat) (e : ConstantPoolInfo)
    (hcount : 1 ≤ read_u16 ((bs.drop p).take 2))
    (hlen : p + 4 ≤ bs.length)
    (hget : constant_pool.get? (read_u16 ((bs.drop (p + 2)).take 2)) = some e)
    (hne : isUtf8Info e = false) :
    decode_attributes constant_pool bs p = .error .notUtf8Panic := by
  rw [decode_attributes, andThen_step (split_at_eq_ok (by omega))]
  cases hm : read_u16 ((bs.drop p).take 2) with
  | zero => omega
  | succ m =>
    rw [attrLoop, andThen_step (split_at_eq_ok (by omega))]
    refine andThen_step_err ?_
    rw [utf8_info_as_str_not_utf8 hget hne]
    rfl

/-- Witness for C8: name index 1 resolves to a `Class` entry; decoding the
one-entry dictionary fails with the resolution panic. -/
theorem attribute_name_must_be_utf8_witness :
    decode_attributes notUtf8Pool [1, 0, 1, 0] 0 = .error .notUtf8Panic :=
  attribute_name_must_be_utf8 notUtf8Pool [1, 0, 1, 0] 0
    (.Class { tag := .Class, name_index := 1 })
    (by decide) (by decide) (by decide) (by decide)

/-- C9 (confirmed): with every dispatch arm commented out in the source,
`decode_attributes` never inserts anything: every successful run returns the
empty dictionary, and consequently the decoded class, every decoded field
and every decoded method carry empty attribute dictionaries. -/
theorem attribute_dictionaries_always_empty :
    (∀ constant_pool bs p m q,
        decode_attributes constant_pool bs p = .ok (m, q) → m = []) ∧
    (∀ hostLE bs cf q, decodeD hostLE bs 0 = .ok (cf, q) →
        cf.attributes = [] ∧ (∀ f ∈ cf.fields, f.attributes = []) ∧
        ∀ mi ∈ cf.methods, mi.attributes = []) := by
  refine ⟨decode_attributes_empty, ?_⟩
  intro hostLE bs cf q hrun
  obtain ⟨-, p1, p2, p3, p4, -, hf, hm, ha⟩ := decodeD_ok_inv hrun
  exact ⟨decode_attributes_empty _ bs p4 _ q ha, decode_fields_attrs hf,
    decode_methods_attrs hm⟩

/-- Witness for C9, at the concrete input `minimalLE`. -/
theorem attribute_dictionaries_always_empty_witness :
    minimalLETree.attributes = ([] : AttrMap) :=
  (attribute_dictionaries_always_empty.2 true minimalLE minimalLETree 34 rfl).1

theorem test_eq_testBit {v : Nat} {k : Nat} (hv : v = 2 ^ k) (f : Nat) :
    ((v &&& f) != 0) = true ↔ f.testBit k = true := by
  subst hv
  exact test_two_pow k f

/-- C10 (confirmed): every access-flag variant's discriminant is a single
bit `2 ^ k`, and for every bitmask `f` the `test` predicate (a pure Lean
function, hence stateless and side-effect free like the Rust original)
returns `true` exactly when `f` includes that bit. -/
theorem access_flag_test_iff_bit :
    (∀ c : ClassAccessFlag, ∃ k, ClassAccessFlag.toU16 c = 2 ^ k ∧
      ∀ f : Nat, (ClassAccessFlag.test c f = true ↔ f.testBit k = true)) ∧
    (∀ c : FieldAccessFlag, ∃ k, FieldAccessFlag.toU16 c = 2 ^ k ∧
      ∀ f : Nat, (FieldAccessFlag.test c f = true ↔ f.testBit k = true)) ∧
    (∀ c : MethodAccessFlag, ∃ k, MethodAccessFlag.toU16 c = 2 ^ k ∧
      ∀ f : Nat, (MethodAccessFlag.test c f = true ↔ f.testBit k = true)) := by
  refine ⟨fun c => ?_, fun c => ?_, fun c => ?_⟩ <;> cases c <;>
    first
    | exact ⟨0, by decide, fun f => test_eq_testBit (by decide) f⟩
    | exact ⟨1, by decide, fun f => test_eq_testBit (by decide) f⟩
    | exact ⟨2, by decide, fun f => test_eq_testBit (by decide) f⟩
    | exact ⟨3, by decide, fun f => test_eq_testBit (by decide) f⟩
    | exact ⟨4, by decide, fun f => test_eq_testBit (by decide) f⟩
    | exact ⟨5, by decide, fun f => test_eq_testBit (by decide) f⟩
    | exact ⟨6, by decide, fun f => test_eq_testBit (by decide) f⟩
    | exact ⟨7, by decide, fun f => test_eq_testBit (by decide) f⟩
    | exact ⟨8, by decide, fun f => test_eq_testBit (by decide) f⟩
    | exact ⟨9, by decide, fun f => test_eq_testBit (by decide) f⟩
    | exact ⟨10, by decide, fun f => test_eq_testBit (by decide) f⟩
    | exact ⟨11, by decide, fun f => test_eq_testBit (by decide) f⟩
    | exact ⟨12, by decide, fun f => test_eq_testBit (by decide) f⟩
    | exact ⟨13, by decide, fun f => test_eq_testBit (by decide) f⟩
    | exact ⟨14, by decide, fun f => test_eq_testBit (by decide) f⟩
    | exact ⟨15, by decide, fun f => test_eq_testBit (by decide) f⟩
